import Mathlib

/-!
Verification development for the partner account / case analyzer servers.

The definitions below are a shallow embedding of the Python sources
`src/partner_account_analyzer/server.py` and
`src/partner_case_analyzer/server.py`: CSV rows become association lists
from column name to cell text, records become structures, the grouping
and diffing code becomes functions on lists and finite sets, and Python
float arithmetic over integer counts is carried out exactly in `ℚ`.
A division that would raise `ZeroDivisionError` is modelled as `none`.
-/

/-- Python `s.strip(c)` for a single strip character: removes every
leading and every trailing occurrence of `c` (not just one layer). -/
def pyStripChar (c : Char) (s : String) : String :=
  String.mk (((s.toList.dropWhile (fun x => x = c)).reverse.dropWhile (fun x => x = c)).reverse)

/-- Python `s.upper()` (ASCII data): uppercase every character. -/
def pyUpper (s : String) : String :=
  String.mk (s.toList.map Char.toUpper)

/-- Python `s.lower()` (ASCII data): lowercase every character. -/
def pyLower (s : String) : String :=
  String.mk (s.toList.map Char.toLower)

/-- Python `row.get(key, "")` on a CSV row modelled as an association list. -/
def rowGet (row : List (String × String)) (k : String) : String :=
  (row.lookup k).getD ""

/-- Account record, one per CSV row (`AccountRecord` in the account server). -/
structure AccountRecord where
  account_name : String
  account_id : String
  support_level : String
  status : String
  linked_accounts : String
  account_type : String
  payer_id : String
  tags : String
deriving DecidableEq, Repr

/-- `AccountRecord.__init__`: field lookup with default-empty fallback,
then `strip('"')` on every field. -/
def AccountRecord.ofRow (row : List (String × String)) : AccountRecord where
  account_name := pyStripChar '"' (rowGet row "Account Name")
  account_id := pyStripChar '"' (rowGet row "Account ID")
  support_level := pyStripChar '"' (rowGet row "Support Level")
  status := pyStripChar '"' (rowGet row "Status")
  linked_accounts := pyStripChar '"' (rowGet row "Linked Accounts")
  account_type := pyStripChar '"' (rowGet row "Account Type")
  payer_id := pyStripChar '"' (rowGet row "Payer ID")
  tags := pyStripChar '"' (rowGet row "Tags")

/-- `AccountRecord.is_enterprise`. -/
def AccountRecord.is_enterprise (a : AccountRecord) : Bool :=
  pyUpper a.support_level == "ENTERPRISE"

/-- `AccountRecord.is_business`. -/
def AccountRecord.is_business (a : AccountRecord) : Bool :=
  pyUpper a.support_level == "BUSINESS"

/-- `AccountRecord.is_developer`. -/
def AccountRecord.is_developer (a : AccountRecord) : Bool :=
  pyUpper a.support_level == "DEVELOPER"

/-- `AccountRecord.is_basic`. -/
def AccountRecord.is_basic (a : AccountRecord) : Bool :=
  pyUpper a.support_level == "BASIC"

/-- `AccountRecord.is_payer`. -/
def AccountRecord.is_payer (a : AccountRecord) : Bool :=
  a.account_type == "PAYER_ACCOUNT"

/-- `AccountRecord.is_linked`. -/
def AccountRecord.is_linked (a : AccountRecord) : Bool :=
  a.account_type == "LINKED_ACCOUNT"

/-! The `analyze_enterprise_accounts` / `analyze_all_accounts` loop walks
the record list once; `if account.is_payer()` appends to
`payer_accounts`, `elif account.is_linked()` appends to
`linked_accounts` and to `payer_to_linked[account.payer_id]`.  The lists
built by such a single pass are the order-preserving filters below. -/

/-- The `payer_accounts` list of the analysis loop. -/
def payer_accounts (accounts : List AccountRecord) : List AccountRecord :=
  accounts.filter (fun a => a.is_payer)

/-- The `linked_accounts` list of the analysis loop (the `elif` branch:
reached only when `is_payer` was false). -/
def linked_accounts (accounts : List AccountRecord) : List AccountRecord :=
  accounts.filter (fun a => !a.is_payer && a.is_linked)

/-- The value of `payer_to_linked[pid]` built by the analysis loop:
every linked record is appended under its own `payer_id` key, whether or
not any payer record carries that id. -/
def payer_to_linked (accounts : List AccountRecord) (pid : String) : List AccountRecord :=
  accounts.filter (fun a => (!a.is_payer && a.is_linked) && a.payer_id == pid)

/-- `total_payers` of the analysis result. -/
def total_payers (accounts : List AccountRecord) : ℕ :=
  (payer_accounts accounts).length

/-- `total_linked` of the analysis result. -/
def total_linked (accounts : List AccountRecord) : ℕ :=
  (linked_accounts accounts).length

/-! Support-tier buckets of `analyze_all_accounts`: an `if/elif/.../else`
chain, so each bucket predicate carries the negation of the earlier ones. -/

/-- `enterprise_accounts` bucket of `analyze_all_accounts`. -/
def enterprise_bucket (accounts : List AccountRecord) : List AccountRecord :=
  accounts.filter (fun a => a.is_enterprise)

/-- `business_accounts` bucket of `analyze_all_accounts`. -/
def business_bucket (accounts : List AccountRecord) : List AccountRecord :=
  accounts.filter (fun a => !a.is_enterprise && a.is_business)

/-- `developer_accounts` bucket of `analyze_all_accounts`. -/
def developer_bucket (accounts : List AccountRecord) : List AccountRecord :=
  accounts.filter (fun a => !a.is_enterprise && !a.is_business && a.is_developer)

/-- `basic_accounts` bucket of `analyze_all_accounts`. -/
def basic_bucket (accounts : List AccountRecord) : List AccountRecord :=
  accounts.filter (fun a => !a.is_enterprise && !a.is_business && !a.is_developer && a.is_basic)

/-- `other_accounts` bucket of `analyze_all_accounts` (the `else` branch). -/
def other_bucket (accounts : List AccountRecord) : List AccountRecord :=
  accounts.filter
    (fun a => !a.is_enterprise && !a.is_business && !a.is_developer && !a.is_basic)

/-! Diff engine: `compare_payer_changes` builds `payers1`/`payers2` as
dicts keyed by `account_id` over the payer records of each snapshot and
takes set differences of the key sets; `get_detailed_linked_changes`
does the same over the linked records. -/

/-- Key set of the `{acc.account_id: acc for acc in payer_accounts}` dict. -/
def payer_key_set (accounts : List AccountRecord) : Finset String :=
  ((payer_accounts accounts).map (fun a => a.account_id)).toFinset

/-- Key set of the `{acc.account_id: acc for acc in linked_accounts}` dict. -/
def linked_key_set (accounts : List AccountRecord) : Finset String :=
  ((linked_accounts accounts).map (fun a => a.account_id)).toFinset

/-- Result of diffing two snapshots on a key set. -/
structure DiffResult where
  added : Finset String
  removed : Finset String
  common : Finset String
deriving DecidableEq

/-- The set algebra of `compare_payer_changes` (lines 490-492):
`new = keys2 - keys1`, `removed = keys1 - keys2`, `common = keys1 ∩ keys2`. -/
def diff_key_sets (keys1 keys2 : Finset String) : DiffResult where
  added := keys2 \ keys1
  removed := keys1 \ keys2
  common := keys1 ∩ keys2

/-- Payer-keyed diff of `compare_payer_changes`. -/
def compare_payer_diff (accounts1 accounts2 : List AccountRecord) : DiffResult :=
  diff_key_sets (payer_key_set accounts1) (payer_key_set accounts2)

/-- Linked-keyed diff of `get_detailed_linked_changes`. -/
def detailed_linked_diff (accounts1 accounts2 : List AccountRecord) : DiffResult :=
  diff_key_sets (linked_key_set accounts1) (linked_key_set accounts2)

/-- C4: added and removed are disjoint, added ∪ common = keys(B),
removed ∪ common = keys(A), and a self-diff has empty added, empty
removed, and common equal to all keys — for both the payer-keyed and the
linked-keyed diff. -/
theorem C4_diff_set_algebra :
    (∀ A B : List AccountRecord,
      Disjoint (compare_payer_diff A B).added (compare_payer_diff A B).removed ∧
      (compare_payer_diff A B).added ∪ (compare_payer_diff A B).common = payer_key_set B ∧
      (compare_payer_diff A B).removed ∪ (compare_payer_diff A B).common = payer_key_set A ∧
      Disjoint (detailed_linked_diff A B).added (detailed_linked_diff A B).removed ∧
      (detailed_linked_diff A B).added ∪ (detailed_linked_diff A B).common = linked_key_set B ∧
      (detailed_linked_diff A B).removed ∪ (detailed_linked_diff A B).common = linked_key_set A)
    ∧ (∀ S : List AccountRecord,
      (compare_payer_diff S S).added = ∅ ∧
      (compare_payer_diff S S).removed = ∅ ∧
      (compare_payer_diff S S).common = payer_key_set S ∧
      (detailed_linked_diff S S).added = ∅ ∧
      (detailed_linked_diff S S).removed = ∅ ∧
      (detailed_linked_diff S S).common = linked_key_set S) := by
  constructor
  · intro A B
    refine ⟨disjoint_sdiff_sdiff, ?_, ?_, disjoint_sdiff_sdiff, ?_, ?_⟩ <;>
      · simp only [compare_payer_diff, detailed_linked_diff, diff_key_sets]
        ext x
        simp only [Finset.mem_union, Finset.mem_sdiff, Finset.mem_inter]
        tauto
  · intro S
    refine ⟨?_, ?_, ?_, ?_, ?_, ?_⟩ <;>
      simp [compare_payer_diff, detailed_linked_diff, diff_key_sets]

/-! C7: the five support-tier buckets partition the snapshot, and payer
plus linked counts never exceed the snapshot size. -/

lemma bucket_partition (accounts : List AccountRecord) :
    (enterprise_bucket accounts).length + (business_bucket accounts).length +
      (developer_bucket accounts).length + (basic_bucket accounts).length +
      (other_bucket accounts).length = accounts.length := by
  induction accounts with
  | nil => simp [enterprise_bucket, business_bucket, developer_bucket, basic_bucket, other_bucket]
  | cons a l ih =>
    simp only [enterprise_bucket, business_bucket, developer_bucket, basic_bucket,
      other_bucket] at ih ⊢
    cases he : a.is_enterprise <;> cases hb : a.is_business <;> cases hd : a.is_developer <;>
      cases hba : a.is_basic <;>
        simp [List.filter_cons, he, hb, hd, hba] <;> omega

lemma payer_linked_le (accounts : List AccountRecord) :
    total_payers accounts + total_linked accounts ≤ accounts.length := by
  induction accounts with
  | nil => simp [total_payers, total_linked, payer_accounts, linked_accounts]
  | cons a l ih =>
    simp only [total_payers, total_linked, payer_accounts, linked_accounts] at ih ⊢
    cases hp : a.is_payer <;> cases hl : a.is_linked <;>
      simp [List.filter_cons, hp, hl] <;> omega

/-- C7: for every snapshot the `analyze_all_accounts` support-tier
buckets (ENTERPRISE, BUSINESS, DEVELOPER, BASIC, OTHER) are a partition,
so their lengths sum to the snapshot size, and
`total_payers + total_linked ≤ len(S)` since records that are neither
payer- nor linked-typed are counted only in the total. -/
theorem C7_bucket_partition_and_type_bound :
    ∀ accounts : List AccountRecord,
      (enterprise_bucket accounts).length + (business_bucket accounts).length +
        (developer_bucket accounts).length + (basic_bucket accounts).length +
        (other_bucket accounts).length = accounts.length ∧
      total_payers accounts + total_linked accounts ≤ accounts.length :=
  fun accounts => ⟨bucket_partition accounts, payer_linked_le accounts⟩

/-! C8: a linked record is always placed in `payer_to_linked` under its
own parent reference, even when no payer record carries that id, and it
is counted in `total_linked`. -/

lemma payer_and_linked_impossible (a : AccountRecord) :
    a.is_payer = true → a.is_linked = true → False := by
  intro hp hl
  simp only [AccountRecord.is_payer, beq_iff_eq] at hp
  simp only [AccountRecord.is_linked, beq_iff_eq] at hl
  rw [hp] at hl
  exact absurd hl (by decide)

lemma total_linked_counts_all_linked (accounts : List AccountRecord) :
    total_linked accounts = (accounts.filter (fun a => a.is_linked)).length := by
  simp only [total_linked, linked_accounts]
  induction accounts with
  | nil => rfl
  | cons a l ih =>
    cases hp : a.is_payer <;> cases hl : a.is_linked <;>
      simp [List.filter_cons, hp, hl, ih]
    exact absurd (payer_and_linked_impossible a hp hl) (fun h => h)

/-- C8: every linked record of a snapshot is present in the
`payer_to_linked` mapping under its parent reference — with no
requirement that any payer record matches that reference, so orphans are
not dropped — it appears in the `linked_accounts` list, the enterprise
variant behaves the same on the enterprise-filtered snapshot, and
`total_linked` counts every linked record of the snapshot. -/
theorem C8_orphan_linked_kept :
    ∀ (accounts : List AccountRecord) (r : AccountRecord),
      r ∈ accounts → r.is_linked = true →
        r ∈ payer_to_linked accounts r.payer_id ∧
        r ∈ linked_accounts accounts ∧
        (r.is_enterprise = true →
          r ∈ payer_to_linked (enterprise_bucket accounts) r.payer_id) ∧
        total_linked accounts = (accounts.filter (fun a => a.is_linked)).length := by
  intro accounts r hmem hl
  have hp : r.is_payer = false := by
    cases hpv : r.is_payer
    · rfl
    · exact absurd (payer_and_linked_impossible r hpv hl) (fun h => h)
  refine ⟨?_, ?_, ?_, ?_⟩
  · exact List.mem_filter.mpr ⟨hmem, by simp [hp, hl]⟩
  · exact List.mem_filter.mpr ⟨hmem, by simp [hp, hl]⟩
  · intro hent
    refine List.mem_filter.mpr ⟨?_, by simp [hp, hl]⟩
    exact List.mem_filter.mpr ⟨hmem, by simp [hent]⟩
  · exact total_linked_counts_all_linked accounts

/-- Concrete orphan linked record: its parent reference "999" matches no
payer in the singleton snapshot. -/
def orphanLinkedRecord : AccountRecord where
  account_name := "orphan-child"
  account_id := "111"
  support_level := "ENTERPRISE"
  status := "Active"
  linked_accounts := ""
  account_type := "LINKED_ACCOUNT"
  payer_id := "999"
  tags := ""

theorem C8_orphan_linked_kept_witness :
    orphanLinkedRecord ∈ [orphanLinkedRecord] ∧ orphanLinkedRecord.is_linked = true ∧
      orphanLinkedRecord ∈ payer_to_linked [orphanLinkedRecord] orphanLinkedRecord.payer_id ∧
      total_linked [orphanLinkedRecord] = 1 :=
  have h := C8_orphan_linked_kept [orphanLinkedRecord] orphanLinkedRecord
    (List.mem_singleton.mpr rfl) (by decide)
  ⟨List.mem_singleton.mpr rfl, by decide, h.1, by decide⟩

/-! Snapshot locator and loader (`normalize_date_format`,
`expand_date_format`, `load_accounts_data`).  The customer folder is
modelled as an association list from filename to parsed CSV rows. -/

/-- `normalize_date_format`: MMDD stays, YYYYMMDD keeps its last four
characters, anything else is returned unchanged. -/
def normalize_date_format (dateStr : String) : String :=
  if dateStr.length = 4 then dateStr
  else if dateStr.length = 8 then dateStr.drop 4
  else dateStr

/-- `expand_date_format`: a 4-character token is paired with its
year-2025 long form, an 8-character token with its MMDD short form. -/
def expand_date_format (dateStr : String) : List String :=
  if dateStr.length = 4 then [dateStr, "2025" ++ dateStr]
  else if dateStr.length = 8 then [dateStr.drop 4, dateStr]
  else [dateStr]

/-- The `possible_filenames` list of `load_accounts_data`: four filename
templates per candidate date format, in source order. -/
def possible_filenames (customer date : String) : List String :=
  (expand_date_format date).flatMap (fun fmt =>
    [customer ++ "-CMC-accounts-" ++ fmt ++ ".csv",
     customer ++ "-accounts-" ++ fmt ++ ".csv",
     "accounts-" ++ fmt ++ ".csv",
     "CMC-accounts-" ++ fmt ++ ".csv"])

/-- A customer folder: filename to parsed CSV rows. -/
def CustomerDir : Type := List (String × List (List (String × String)))

/-- `load_accounts_data`: pick the first candidate filename that exists
in the folder and build one `AccountRecord` per row; `none` models the
`FileNotFoundError` raised when no candidate exists. -/
def load_accounts_data (dir : CustomerDir) (customer date : String) :
    Option (List AccountRecord) :=
  match (possible_filenames customer date).find? (fun fn => (dir.lookup fn).isSome) with
  | none => none
  | some fn => some ((((dir.lookup fn).getD []).map AccountRecord.ofRow))

/-- Folder holding a single dated accounts file whose long-form date has
year 2024, used to refute the general claim C2. -/
def dir2024 : CustomerDir := [("accounts-20240731.csv", [[("Account ID", "1")]])]

/-- C2 counterexample: the tokens "20240731" and "0731" normalize to the
same short form, yet against a folder containing only
`accounts-20240731.csv` the 8-character token resolves the file while
the 4-character token fails with not-found, because the short form is
expanded with the hardcoded year 2025. -/
theorem C2_counterexample_year_not_2025 :
    normalize_date_format "20240731" = normalize_date_format "0731" ∧
      load_accounts_data dir2024 "acme" "20240731" ≠ load_accounts_data dir2024 "acme" "0731" := by
  constructor
  · rfl
  · decide

/-- C2 (amended): two date tokens with the same `expand_date_format`
candidate list — in particular the 8-character long form "20250731" and
the 4-character short form "0731", whose long form synthesizes the fixed
year 2025 — resolve to the same file of any customer folder and load the
identical record sequence; for a non-2025 long-form token the two
requests may resolve differently. -/
theorem C2_load_agrees_on_expanded_tokens :
    (∀ (dir : CustomerDir) (customer t1 t2 : String),
      expand_date_format t1 = expand_date_format t2 →
        load_accounts_data dir customer t1 = load_accounts_data dir customer t2) ∧
    expand_date_format "20250731" = expand_date_format "0731" := by
  constructor
  · intro dir customer t1 t2 h
    simp only [load_accounts_data, possible_filenames, h]
  · decide

theorem C2_load_agrees_witness :
    expand_date_format "20250731" = expand_date_format "0731" ∧
      load_accounts_data [("accounts-20250731.csv", [[("Account ID", "7")]])] "acme" "20250731" =
        load_accounts_data [("accounts-20250731.csv", [[("Account ID", "7")]])] "acme" "0731" :=
  ⟨by decide, C2_load_agrees_on_expanded_tokens.1
    [("accounts-20250731.csv", [[("Account ID", "7")]])] "acme" "20250731" "0731" (by decide)⟩

/-! C5: quote handling of `AccountRecord.__init__`. Python `strip('"')`
removes every leading and trailing quote, not a single layer. -/

lemma dropWhile_replicate_append (p : Char → Bool) (a : Char) (h : p a = true) :
    ∀ (n : ℕ) (l : List Char), List.dropWhile p (List.replicate n a ++ l) = List.dropWhile p l := by
  intro n
  induction n with
  | zero => intro l; simp
  | succ k ih => intro l; simp [List.replicate_succ, List.dropWhile_cons, h, ih]

lemma dropWhile_of_head_ne (p : Char → Bool) (l : List Char)
    (h : ∀ c, l.head? = some c → p c = false) : List.dropWhile p l = l := by
  cases l with
  | nil => rfl
  | cons c rest => simp [List.dropWhile_cons, h c rfl]

lemma pyStripChar_replicate_wrap (l : List Char) (i j : ℕ)
    (hne : l ≠ []) (hh : l.head? ≠ some '"') (hl : l.getLast? ≠ some '"') :
    pyStripChar '"' (String.mk (List.replicate i '"' ++ l ++ List.replicate j '"')) =
      String.mk l := by
  have htl : (String.mk (List.replicate i '"' ++ l ++ List.replicate j '"')).toList =
      List.replicate i '"' ++ l ++ List.replicate j '"' := rfl
  simp only [pyStripChar, htl]
  rw [List.append_assoc, dropWhile_replicate_append _ '"' (by decide)]
  have h1 : List.dropWhile (fun x => decide (x = '"')) (l ++ List.replicate j '"') =
      l ++ List.replicate j '"' := by
    apply dropWhile_of_head_ne
    intro c hc
    rcases l with _ | ⟨c0, rest⟩
    · exact absurd rfl hne
    · simp only [List.cons_append, List.head?_cons, Option.some.injEq] at hc
      subst hc
      simp only [List.head?_cons, ne_eq, Option.some.injEq] at hh
      simpa using hh
  rw [h1, List.reverse_append, List.reverse_replicate,
    dropWhile_replicate_append _ '"' (by decide)]
  have h2 : List.dropWhile (fun x => decide (x = '"')) l.reverse = l.reverse := by
    apply dropWhile_of_head_ne
    intro c hc
    rw [List.head?_reverse] at hc
    rw [hc] at hl
    simp only [ne_eq, Option.some.injEq] at hl
    simpa using hl
  rw [h2, List.reverse_reverse]

/-- C5 counterexample: a cell whose single-layer-stripped content itself
begins and ends with a quote does NOT keep those inner quotes; the
doubly quoted name loads as plain `x`, not as the singly quoted form the
claim predicts. -/
theorem C5_counterexample_inner_quotes_removed :
    (AccountRecord.ofRow [("Account Name", "\"\"x\"\"")]).account_name = "x" ∧
      "x" ≠ "\"x\"" := by
  constructor
  · rfl
  · decide

/-- C5 (amended): record construction substitutes the empty string for
every missing field and strips EVERY leading and trailing quote
character from a field value — any number of wrapping quote layers is
removed, so inner boundary quotes are not retained. -/
theorem C5_default_empty_and_strip_all_quotes :
    (∀ row : List (String × String), row.lookup "Account Name" = none →
      (AccountRecord.ofRow row).account_name = "") ∧
    (∀ (i j : ℕ) (l : List Char), l ≠ [] → l.head? ≠ some '"' → l.getLast? ≠ some '"' →
      (AccountRecord.ofRow
          [("Account Name", String.mk (List.replicate i '"' ++ l ++ List.replicate j '"'))]
        ).account_name = String.mk l) := by
  constructor
  · intro row h
    simp only [AccountRecord.ofRow, rowGet, h, Option.getD_none]
    rfl
  · intro i j l hne hh hl
    have hrow : rowGet
        [("Account Name", String.mk (List.replicate i '"' ++ l ++ List.replicate j '"'))]
        "Account Name" = String.mk (List.replicate i '"' ++ l ++ List.replicate j '"') := by
      simp [rowGet, List.lookup]
    simp only [AccountRecord.ofRow, hrow]
    exact pyStripChar_replicate_wrap l i j hne hh hl

theorem C5_default_empty_and_strip_all_quotes_witness :
    (AccountRecord.ofRow []).account_name = "" ∧
      (AccountRecord.ofRow
          [("Account Name", String.mk (List.replicate 2 '"' ++ ['x'] ++ List.replicate 2 '"'))]
        ).account_name = String.mk ['x'] :=
  ⟨C5_default_empty_and_strip_all_quotes.1 [] rfl,
   C5_default_empty_and_strip_all_quotes.2 2 2 ['x'] (by decide) (by decide) (by decide)⟩

/-! C1: the percentage/ratio expressions of the report path.  `pyDiv`
models Python division over the integer counts: `none` is a raised
`ZeroDivisionError`. -/

/-- Python `a / b` on counts: `none` models `ZeroDivisionError`. -/
def pyDiv (a b : ℚ) : Option ℚ :=
  if b = 0 then none else some (a / b)

/-- The first ratio of the `analyze_single_date_accounts` report
(server.py line 849): `total_linked / total_payers` over the
enterprise-filtered snapshot, with no zero guard. -/
def single_date_payer_linked_ratio (accounts : List AccountRecord) : Option ℚ :=
  let ent := accounts.filter (fun a => a.is_enterprise)
  pyDiv (total_linked ent) (total_payers ent)

/-- The first percentage of the `analyze_partner_overall_business`
report (server.py line 1803): `total_payers / total_accounts * 100`,
with no zero guard on the snapshot size. -/
def overall_business_payer_pct (accounts : List AccountRecord) : Option ℚ :=
  Option.map (fun q => q * 100) (pyDiv (total_payers accounts) (accounts.length))

/-- Enterprise-level linked record with no payer: a snapshot made of it
alone has zero payer accounts. -/
def enterpriseLinkedOnly : AccountRecord where
  account_name := "solo-linked"
  account_id := "222"
  support_level := "ENTERPRISE"
  status := "Active"
  linked_accounts := ""
  account_type := "LINKED_ACCOUNT"
  payer_id := "333"
  tags := ""

/-- C1: contrary to the claim, the report path divides without a zero
guard — on a snapshot with zero payer accounts the
`analyze_single_date_accounts` ratio raises `ZeroDivisionError`
(modelled as `none`), and on an empty snapshot the
`analyze_partner_overall_business` payer percentage does too. -/
theorem C1_unguarded_divisions_raise :
    single_date_payer_linked_ratio [enterpriseLinkedOnly] = none ∧
      overall_business_payer_pct ([] : List AccountRecord) = none := by
  constructor
  · have h0 : total_payers ([enterpriseLinkedOnly].filter (fun a => a.is_enterprise)) = 0 := by
      decide
    simp [single_date_payer_linked_ratio, pyDiv, h0]
  · have h0 : total_payers ([] : List AccountRecord) = 0 := rfl
    simp [overall_business_payer_pct, pyDiv, h0]

/-! C9: `find_account_first_appearance` / `find_account_last_appearance`.
The per-customer date history is modelled as the list of
(date, loaded snapshot) pairs in oldest-to-newest order. -/

/-- The inner loop of both appearance scans: does the snapshot hold a
record with the given id whose type matches the PAYER/LINKED selector? -/
def appearance_matches (accounts : List AccountRecord) (accountId accountType : String) : Bool :=
  accounts.any (fun a => a.account_id == accountId &&
    ((accountType == "PAYER" && a.is_payer) || (accountType == "LINKED" && a.is_linked)))

/-- The shared date loop: return the first date whose snapshot matches. -/
def find_appearance_scan : List (String × List AccountRecord) → String → String → Option String
  | [], _, _ => none
  | (d, snap) :: rest, accountId, accountType =>
    if appearance_matches snap accountId accountType then some d
    else find_appearance_scan rest accountId accountType

/-- `find_account_first_appearance`: scan the dates oldest to newest. -/
def find_account_first_appearance (history : List (String × List AccountRecord))
    (accountId accountType : String) : Option String :=
  find_appearance_scan history accountId accountType

/-- `find_account_last_appearance`: scan the dates newest to oldest
(`for date in reversed(dates)`). -/
def find_account_last_appearance (history : List (String × List AccountRecord))
    (accountId accountType : String) : Option String :=
  find_appearance_scan history.reverse accountId accountType

lemma find_appearance_scan_eq_some_iff (accountId accountType : String) :
    ∀ (history : List (String × List AccountRecord)) (d : String),
      find_appearance_scan history accountId accountType = some d ↔
        ∃ pre snap post, history = pre ++ (d, snap) :: post ∧
          appearance_matches snap accountId accountType = true ∧
          ∀ q ∈ pre, appearance_matches q.2 accountId accountType = false := by
  intro history
  induction history with
  | nil =>
    intro d
    simp [find_appearance_scan]
  | cons hd rest ih =>
    intro d
    obtain ⟨d0, snap0⟩ := hd
    simp only [find_appearance_scan]
    by_cases hm : appearance_matches snap0 accountId accountType = true
    · rw [if_pos hm]
      constructor
      · intro h
        obtain rfl : d0 = d := by simpa using h
        exact ⟨[], snap0, rest, rfl, hm, by simp⟩
      · rintro ⟨pre, snap, post, heq, hms, hall⟩
        cases pre with
        | nil =>
          simp only [List.nil_append, List.cons.injEq, Prod.mk.injEq] at heq
          simp [heq.1.1]
        | cons p pre2 =>
          simp only [List.cons_append, List.cons.injEq] at heq
          have hp := hall p (by simp)
          rw [← heq.1] at hp
          simp only at hp
          exact absurd hm (by simp [hp])
    · rw [if_neg hm]
      rw [ih d]
      constructor
      · rintro ⟨pre, snap, post, heq, hms, hall⟩
        refine ⟨(d0, snap0) :: pre, snap, post, by simp [heq], hms, ?_⟩
        intro q hq
        rcases List.mem_cons.mp hq with h | h
        · rw [h]
          simpa using hm
        · exact hall q h
      · rintro ⟨pre, snap, post, heq, hms, hall⟩
        cases pre with
        | nil =>
          simp only [List.nil_append, List.cons.injEq, Prod.mk.injEq] at heq
          exact absurd (heq.1.2 ▸ hms) hm
        | cons p pre2 =>
          simp only [List.cons_append, List.cons.injEq] at heq
          refine ⟨pre2, snap, post, heq.2, hms, ?_⟩
          intro q hq
          exact hall q (List.mem_cons.mpr (Or.inr hq))

lemma find_appearance_scan_eq_none_iff (accountId accountType : String) :
    ∀ history : List (String × List AccountRecord),
      find_appearance_scan history accountId accountType = none ↔
        ∀ q ∈ history, appearance_matches q.2 accountId accountType = false := by
  intro history
  induction history with
  | nil => simp [find_appearance_scan]
  | cons hd rest ih =>
    obtain ⟨d0, snap0⟩ := hd
    simp only [find_appearance_scan]
    by_cases hm : appearance_matches snap0 accountId accountType = true
    · rw [if_pos hm]
      simp [hm]
    · rw [if_neg hm]
      rw [ih]
      constructor
      · intro h q hq
        rcases List.mem_cons.mp hq with hh | hh
        · rw [hh]
          simpa using hm
        · exact h q hh
      · intro h q hq
        exact h q (List.mem_cons.mpr (Or.inr hq))

/-- C9: the first-appearance scan returns a date exactly when it is the
oldest available date whose loaded snapshot has a record with the given
id satisfying the PAYER/LINKED selector; the last-appearance scan is
symmetric, returning the newest such date; both return `none`
("unknown") exactly when no available date has such a record; and the
per-snapshot test holds exactly when some record matches id and type. -/
theorem C9_first_last_appearance_spec :
    ∀ (history : List (String × List AccountRecord)) (accountId accountType : String),
      (∀ d : String,
        find_account_first_appearance history accountId accountType = some d ↔
          ∃ pre snap post, history = pre ++ (d, snap) :: post ∧
            appearance_matches snap accountId accountType = true ∧
            ∀ q ∈ pre, appearance_matches q.2 accountId accountType = false) ∧
      (∀ d : String,
        find_account_last_appearance history accountId accountType = some d ↔
          ∃ pre snap post, history = pre ++ (d, snap) :: post ∧
            appearance_matches snap accountId accountType = true ∧
            ∀ q ∈ post, appearance_matches q.2 accountId accountType = false) ∧
      (find_account_first_appearance history accountId accountType = none ↔
        ∀ q ∈ history, appearance_matches q.2 accountId accountType = false) ∧
      (find_account_last_appearance history accountId accountType = none ↔
        ∀ q ∈ history, appearance_matches q.2 accountId accountType = false) ∧
      (∀ snap : List AccountRecord,
        appearance_matches snap accountId accountType = true ↔
          ∃ a ∈ snap, a.account_id = accountId ∧
            ((accountType = "PAYER" ∧ a.is_payer = true) ∨
             (accountType = "LINKED" ∧ a.is_linked = true))) := by
  intro history accountId accountType
  refine ⟨fun d => find_appearance_scan_eq_some_iff accountId accountType history d, ?_, ?_, ?_, ?_⟩
  · intro d
    rw [find_account_last_appearance,
      find_appearance_scan_eq_some_iff accountId accountType history.reverse d]
    constructor
    · rintro ⟨pre, snap, post, heq, hms, hall⟩
      refine ⟨post.reverse, snap, pre.reverse, ?_, hms, ?_⟩
      · have := congrArg List.reverse heq
        simpa [List.reverse_append] using this
      · intro q hq
        exact hall q (by simpa using hq)
    · rintro ⟨pre, snap, post, heq, hms, hall⟩
      refine ⟨post.reverse, snap, pre.reverse, ?_, hms, ?_⟩
      · rw [heq]
        simp [List.reverse_append]
      · intro q hq
        exact hall q (by simpa using hq)
  · exact find_appearance_scan_eq_none_iff accountId accountType history
  · rw [find_account_last_appearance,
      find_appearance_scan_eq_none_iff accountId accountType history.reverse]
    constructor
    · intro h q hq
      exact h q (by simpa using hq)
    · intro h q hq
      exact h q (by simpa using hq)
  · intro snap
    simp only [appearance_matches, List.any_eq_true, Bool.and_eq_true, Bool.or_eq_true,
      beq_iff_eq]

theorem C9_first_last_appearance_witness :
    find_account_first_appearance [("0723", []), ("0731", [orphanLinkedRecord])]
      "111" "LINKED" = some "0731" :=
  ((C9_first_last_appearance_spec [("0723", []), ("0731", [orphanLinkedRecord])]
      "111" "LINKED").1 "0731").mpr
    ⟨[("0723", [])], [orphanLinkedRecord], [], rfl, by decide, by decide⟩

/-! Case analyzer (`partner_case_analyzer/server.py`).  A case row is an
association list from column name to cell text; `case.get(k, '').strip()`
becomes `caseGet`. -/

/-- Python `s.strip()`: drop leading and trailing whitespace. -/
def pyTrim (s : String) : String :=
  String.mk (((s.toList.dropWhile (fun x => x.isWhitespace)).reverse.dropWhile
    (fun x => x.isWhitespace)).reverse)

/-- A support-ticket CSV row. -/
def CaseRow : Type := List (String × String)

/-- `case.get(key, '').strip()`. -/
def caseGet (row : CaseRow) (k : String) : String :=
  pyTrim (rowGet row k)

/-- `case.get('Account PayerId', '').strip()`. -/
def casePayerId (row : CaseRow) : String :=
  caseGet row "Account PayerId"

/-- `case.get('Category (C)', '').strip()`. -/
def caseCategory (row : CaseRow) : String :=
  caseGet row "Category (C)"

/-- `category.lower() == "technical support"`: the single fixed literal
deciding the technical / non-technical split. -/
def is_technical_support (row : CaseRow) : Bool :=
  pyLower (caseCategory row) == "technical support"

/-- Keys of the `payer_stats` defaultdict: the distinct non-empty payer
ids (`if payer_id:` guards every update). -/
def payer_ids (cases : List CaseRow) : Finset String :=
  ((cases.map casePayerId).filter (fun p => p ≠ "")).toFinset

/-- `payer_stats[p]["total_cases"]` for a non-empty key `p`. -/
def payer_total_cases (cases : List CaseRow) (p : String) : ℕ :=
  (cases.filter (fun c => casePayerId c == p)).length

/-- `payer_stats[p]["technical_support"]`. -/
def payer_technical (cases : List CaseRow) (p : String) : ℕ :=
  (cases.filter (fun c => casePayerId c == p && is_technical_support c)).length

/-- `payer_stats[p]["non_technical_support"]`. -/
def payer_non_technical (cases : List CaseRow) (p : String) : ℕ :=
  (cases.filter (fun c => casePayerId c == p && !is_technical_support c)).length

/-- `total_cases = sum(stats["total_cases"] ...)` of the aggregate. -/
def sum_total_cases (cases : List CaseRow) : ℕ :=
  ∑ p in payer_ids cases, payer_total_cases cases p

/-- `total_tech = sum(stats["technical_support"] ...)`. -/
def sum_technical (cases : List CaseRow) : ℕ :=
  ∑ p in payer_ids cases, payer_technical cases p

/-- `total_non_tech = sum(stats["non_technical_support"] ...)`. -/
def sum_non_technical (cases : List CaseRow) : ℕ :=
  ∑ p in payer_ids cases, payer_non_technical cases p

/-- `overall_tech_percentage = (total_tech / total_cases) * 100 if
total_cases > 0 else 0`. -/
def overall_tech_percentage (cases : List CaseRow) : ℚ :=
  if sum_total_cases cases = 0 then 0
  else ((sum_technical cases : ℚ) / (sum_total_cases cases : ℚ)) * 100

/-! Counting lemmas connecting the per-payer dict sums to plain filters
over the loaded case list. -/

lemma count_map_payer (p : String) (l : List CaseRow) :
    (l.map casePayerId).count p = (l.filter (fun c => casePayerId c == p)).length := by
  induction l with
  | nil => rfl
  | cons c rest ih =>
    by_cases h : casePayerId c = p
    · simp [List.count_cons, List.filter_cons, h, ih]
    · simp [List.count_cons, List.filter_cons, h, ih]

lemma payer_ids_eq_filtered_map (l : List CaseRow) :
    payer_ids l = ((l.filter (fun c => casePayerId c ≠ "")).map casePayerId).toFinset := by
  simp [payer_ids, List.filter_map, Function.comp_def]

lemma sum_payer_total (l : List CaseRow) :
    ∑ p in payer_ids l, payer_total_cases l p =
      (l.filter (fun c => casePayerId c ≠ "")).length := by
  classical
  rw [payer_ids_eq_filtered_map]
  have hlen : ((l.filter (fun c => casePayerId c ≠ "")).map casePayerId).length =
      (l.filter (fun c => casePayerId c ≠ "")).length := by
    simp
  rw [← hlen, ← List.sum_toFinset_count_eq_length]
  apply Finset.sum_congr rfl
  intro p hp
  have hpmem : p ∈ (l.filter (fun c => casePayerId c ≠ "")).map casePayerId :=
    List.mem_toFinset.mp hp
  have hpne : p ≠ "" := by
    obtain ⟨c, hc, hcp⟩ := List.mem_map.mp hpmem
    have := List.of_mem_filter hc
    simpa [hcp] using this
  rw [payer_total_cases, count_map_payer p (l.filter (fun c => casePayerId c ≠ ""))]
  rw [List.filter_filter]
  congr 1
  apply List.filter_congr
  intro c _
  by_cases h : casePayerId c = p
  · simp [h, hpne]
  · simp [h]

lemma payer_technical_as_total (l : List CaseRow) (p : String) :
    payer_technical l p = payer_total_cases (l.filter (fun c => is_technical_support c)) p := by
  rw [payer_technical, payer_total_cases, List.filter_filter]

lemma payer_non_technical_as_total (l : List CaseRow) (p : String) :
    payer_non_technical l p =
      payer_total_cases (l.filter (fun c => !is_technical_support c)) p := by
  rw [payer_non_technical, payer_total_cases, List.filter_filter]

lemma payer_ids_filter_subset (l : List CaseRow) (q : CaseRow → Bool) :
    payer_ids (l.filter q) ⊆ payer_ids l := by
  intro p hp
  simp only [payer_ids, List.mem_toFinset, List.mem_filter, List.mem_map] at hp ⊢
  obtain ⟨⟨c, hc, hcp⟩, hne⟩ := hp
  exact ⟨⟨c, hc.1, hcp⟩, hne⟩

lemma sum_payer_total_over_filter (l : List CaseRow) (q : CaseRow → Bool) :
    ∑ p in payer_ids l, payer_total_cases (l.filter q) p =
      (l.filter (fun c => casePayerId c ≠ "" ∧ q c = true)).length := by
  classical
  have hsub := payer_ids_filter_subset l q
  have hzero : ∀ p ∈ payer_ids l, p ∉ payer_ids (l.filter q) →
      payer_total_cases (l.filter q) p = 0 := by
    intro p hpl hpq
    rw [payer_total_cases, List.length_eq_zero]
    rw [List.filter_eq_nil_iff]
    intro c hc
    intro hcp
    apply hpq
    have hpne : p ≠ "" := by
      simp only [payer_ids, List.mem_toFinset, List.mem_filter] at hpl
      exact of_decide_eq_true hpl.2
    simp only [payer_ids]
    apply List.mem_toFinset.mpr
    apply List.mem_filter.mpr
    refine ⟨List.mem_map.mpr ⟨c, hc, ?_⟩, by simpa using hpne⟩
    simpa using hcp
  rw [← Finset.sum_subset hsub hzero, sum_payer_total]
  rw [List.filter_filter]
  congr 1
  apply List.filter_congr
  intro c _
  by_cases h : casePayerId c = "" <;> by_cases hq : q c = true <;> simp [h, hq]

lemma sum_payer_technical (l : List CaseRow) :
    ∑ p in payer_ids l, payer_technical l p =
      (l.filter (fun c => casePayerId c ≠ "" ∧ is_technical_support c = true)).length := by
  calc ∑ p in payer_ids l, payer_technical l p
      = ∑ p in payer_ids l,
          payer_total_cases (l.filter (fun c => is_technical_support c)) p :=
        Finset.sum_congr rfl (fun p _ => payer_technical_as_total l p)
    _ = _ := sum_payer_total_over_filter l (fun c => is_technical_support c)

lemma sum_payer_non_technical (l : List CaseRow) :
    ∑ p in payer_ids l, payer_non_technical l p =
      (l.filter (fun c => casePayerId c ≠ "" ∧ is_technical_support c = false)).length := by
  calc ∑ p in payer_ids l, payer_non_technical l p
      = ∑ p in payer_ids l,
          payer_total_cases (l.filter (fun c => !is_technical_support c)) p :=
        Finset.sum_congr rfl (fun p _ => payer_non_technical_as_total l p)
    _ = (l.filter (fun c => casePayerId c ≠ "" ∧ (!is_technical_support c) = true)).length :=
        sum_payer_total_over_filter l (fun c => !is_technical_support c)
    _ = _ := by
        congr 1
        apply List.filter_congr
        intro c _
        by_cases ht : is_technical_support c = true <;>
          by_cases h : casePayerId c = "" <;> simp [ht, h]

/-- C10: the per-payer aggregation silently drops every case whose
'Account PayerId' field is empty — the payer-summed total equals the
number of loaded cases with a non-empty payer id, which is strictly
below the snapshot size whenever some case lacks a payer id. -/
theorem C10_empty_payer_id_excluded :
    (∀ cases : List CaseRow,
      sum_total_cases cases = (cases.filter (fun c => casePayerId c ≠ "")).length) ∧
    (∃ cases : List CaseRow, sum_total_cases cases < cases.length) := by
  constructor
  · intro cases
    exact sum_payer_total cases
  · refine ⟨[[("Account PayerId", ""), ("Category (C)", "Technical support")]], ?_⟩
    show sum_total_cases _ < _
    rw [sum_total_cases, sum_payer_total]
    decide

/-! C6: technical / non-technical split of the by-payer ticket
aggregation. -/

lemma filter_length_add_filter_not_length (p : CaseRow → Bool) (l : List CaseRow) :
    (l.filter p).length + (l.filter (fun c => !p c)).length = l.length := by
  induction l with
  | nil => rfl
  | cons c rest ih =>
    cases h : p c <;> simp [List.filter_cons, h] <;> omega

/-- Ticket snapshot of 10 records with 6 technical-support cases, one of
which has an empty 'Account PayerId' cell. -/
def badTicketSnapshot : List CaseRow :=
  [("Account PayerId", ""), ("Category (C)", "Technical support")] ::
    (List.replicate 5 [("Account PayerId", "100"), ("Category (C)", "TECHNICAL SUPPORT")] ++
     List.replicate 4 [("Account PayerId", "200"), ("Category (C)", "Account billing")])

/-- C6 counterexample: a 10-record snapshot with exactly 6 case-insensitive
"Technical support" records for which the by-payer aggregate reports
only 5 technical cases and an overall percentage different from 60,
because the technical case without a payer id is dropped. -/
theorem C6_counterexample_missing_payer_id :
    badTicketSnapshot.length = 10 ∧
      (badTicketSnapshot.filter (fun c => is_technical_support c)).length = 6 ∧
      sum_technical badTicketSnapshot = 5 ∧
      sum_technical badTicketSnapshot ≠ 6 ∧
      overall_tech_percentage badTicketSnapshot ≠ 60 := by
  have h1 : sum_technical badTicketSnapshot = 5 := by
    rw [sum_technical, sum_payer_technical]
    decide
  have h2 : sum_total_cases badTicketSnapshot = 9 := by
    rw [sum_total_cases, sum_payer_total]
    decide
  refine ⟨by decide, by decide, h1, by rw [h1]; decide, ?_⟩
  rw [overall_tech_percentage, h1, h2]
  norm_num

/-- C6 (amended): for a ticket snapshot of 10 records in which EVERY
record carries a non-empty 'Account PayerId' and exactly 6 records have
category "Technical support" under case-insensitive comparison, the
by-payer aggregate reports 6 technical cases, 4 non-technical cases and
an overall technical percentage of 60.0; and a case counts as technical
exactly when its category field, lowercased, equals the single fixed
literal "technical support". -/
theorem C6_technical_split_with_payer_ids :
    ∀ cases : List CaseRow,
      cases.length = 10 →
      (∀ c ∈ cases, casePayerId c ≠ "") →
      (cases.filter (fun c => is_technical_support c)).length = 6 →
      sum_technical cases = 6 ∧ sum_non_technical cases = 4 ∧
        overall_tech_percentage cases = 60 ∧
        (∀ c : CaseRow,
          is_technical_support c = true ↔ pyLower (caseCategory c) = "technical support") := by
  intro cases hlen hpayer htech
  have htechsum : sum_technical cases = 6 := by
    rw [sum_technical, sum_payer_technical]
    rw [← htech]
    congr 1
    apply List.filter_congr
    intro c hc
    simp [hpayer c hc]
  have htotal : sum_total_cases cases = 10 := by
    rw [sum_total_cases, sum_payer_total]
    rw [← hlen]
    have : cases.filter (fun c => casePayerId c ≠ "") = cases := by
      apply List.filter_eq_self.mpr
      intro c hc
      simpa using hpayer c hc
    rw [this]
  have hnontech : sum_non_technical cases = 4 := by
    rw [sum_non_technical, sum_payer_non_technical]
    have heq : (cases.filter
        (fun c => casePayerId c ≠ "" ∧ is_technical_support c = false)).length =
        (cases.filter (fun c => !is_technical_support c)).length := by
      congr 1
      apply List.filter_congr
      intro c hc
      cases ht : is_technical_support c <;> simp [hpayer c hc, ht]
    rw [heq]
    have hsum := filter_length_add_filter_not_length (fun c => is_technical_support c) cases
    omega
  refine ⟨htechsum, hnontech, ?_, ?_⟩
  · rw [overall_tech_percentage, htechsum, htotal]
    norm_num
  · intro c
    simp [is_technical_support, beq_iff_eq]

/-- Ticket snapshot of 10 records, all with payer ids, 6 technical. -/
def goodTicketSnapshot : List CaseRow :=
  List.replicate 6 [("Account PayerId", "100"), ("Category (C)", "Technical Support")] ++
    List.replicate 4 [("Account PayerId", "200"), ("Category (C)", "Account billing")]

theorem C6_technical_split_witness :
    goodTicketSnapshot.length = 10 ∧
      (goodTicketSnapshot.filter (fun c => is_technical_support c)).length = 6 ∧
      sum_technical goodTicketSnapshot = 6 ∧ sum_non_technical goodTicketSnapshot = 4 ∧
      overall_tech_percentage goodTicketSnapshot = 60 :=
  have h := C6_technical_split_with_payer_ids goodTicketSnapshot (by decide)
    (by decide) (by decide)
  ⟨by decide, by decide, h.1, h.2.1, h.2.2.1⟩

/-! C3: `_calculate_gini_coefficient`.  The float arithmetic over the
integer linked-counts is carried out exactly in `ℚ`. -/

/-- The numerator loop `for i, value in enumerate(sorted_values):
gini += (2 * (i + 1) - n - 1) * value`. -/
def giniNumAux (n : ℤ) : ℤ → List ℕ → ℤ
  | _, [] => 0
  | i, v :: rest => (2 * (i + 1) - n - 1) * (v : ℤ) + giniNumAux n (i + 1) rest

/-- `_calculate_gini_coefficient`: 0 for an empty or all-zero list, else
sort ascending, and divide the enumerate-loop numerator by `n * cumsum`
(with the redundant `cumsum == 0` re-check of the source kept). -/
def _calculate_gini_coefficient (values : List ℕ) : ℚ :=
  if values = [] ∨ values.all (fun v => v = 0) then 0
  else if (List.insertionSort (fun x y => x ≤ y) values).sum = 0 then 0
  else ((giniNumAux ((List.insertionSort (fun x y => x ≤ y) values).length : ℤ) 0
      (List.insertionSort (fun x y => x ≤ y) values) : ℤ) : ℚ) /
    (((List.insertionSort (fun x y => x ≤ y) values).length : ℚ) *
      ((List.insertionSort (fun x y => x ≤ y) values).sum : ℚ))

/-- The spec's wording of the same formula: values sorted ascending,
1-indexed rank `i`, `sum((2*i - n - 1) * value)` over the ranks divided
by `n * sum(values)`; defined as 0 when all values are 0. -/
def giniSpecFormula (values : List ℕ) : ℚ :=
  if values = [] ∨ values.all (fun v => v = 0) then 0
  else ((∑ j in Finset.range (List.insertionSort (fun x y => x ≤ y) values).length,
      (2 * ((j : ℤ) + 1) - ((List.insertionSort (fun x y => x ≤ y) values).length : ℤ) - 1) *
        ((List.insertionSort (fun x y => x ≤ y) values).getD j 0 : ℤ) : ℤ) : ℚ) /
    (((List.insertionSort (fun x y => x ≤ y) values).length : ℚ) *
      ((List.insertionSort (fun x y => x ≤ y) values).sum : ℚ))

lemma giniNumAux_eq_sum (n : ℤ) :
    ∀ (l : List ℕ) (i : ℤ),
      giniNumAux n i l =
        ∑ j in Finset.range l.length, (2 * (i + (j : ℤ) + 1) - n - 1) * (l.getD j 0 : ℤ) := by
  intro l
  induction l with
  | nil => intro i; simp [giniNumAux]
  | cons v rest ih =>
    intro i
    rw [List.length_cons, Finset.sum_range_succ']
    simp only [List.getD_cons_succ, List.getD_cons_zero, Nat.cast_zero]
    rw [giniNumAux, ih (i + 1)]
    have hsum : ∑ j in Finset.range rest.length,
        (2 * ((i + 1) + (j : ℤ) + 1) - n - 1) * (rest.getD j 0 : ℤ) =
        ∑ j in Finset.range rest.length,
        (2 * (i + ((j : ℤ) + 1) + 1) - n - 1) * (rest.getD j 0 : ℤ) :=
      Finset.sum_congr rfl (fun j _ => by ring_nf)
    push_cast
    rw [hsum]
    ring

lemma giniNumAux_replicate (n : ℤ) (c : ℕ) :
    ∀ (k : ℕ) (i : ℤ),
      giniNumAux n i (List.replicate k c) = (c : ℤ) * (k : ℤ) * (2 * i + (k : ℤ) - n) := by
  intro k
  induction k with
  | zero => intro i; simp [giniNumAux]
  | succ m ih =>
    intro i
    rw [List.replicate_succ, giniNumAux, ih (i + 1)]
    push_cast
    ring

lemma giniNumAux_append (n : ℤ) :
    ∀ (l1 l2 : List ℕ) (i : ℤ),
      giniNumAux n i (l1 ++ l2) = giniNumAux n i l1 + giniNumAux n (i + l1.length) l2 := by
  intro l1
  induction l1 with
  | nil => intro l2 i; simp [giniNumAux]
  | cons v rest ih =>
    intro l2 i
    rw [List.cons_append, giniNumAux, giniNumAux, ih l2 (i + 1), List.length_cons]
    push_cast
    ring_nf

lemma sum_pos_of_not_all_zero (values : List ℕ)
    (h : values.all (fun v => v = 0) = false) : 0 < values.sum := by
  rw [List.all_eq_false] at h
  obtain ⟨v, hv, hvne⟩ := h
  have hvpos : 0 < v := Nat.pos_of_ne_zero (by simpa using hvne)
  exact lt_of_lt_of_le hvpos (List.le_sum_of_mem hv)

lemma sorted_zeros_then (m T : ℕ) :
    List.Sorted (fun x y => x ≤ y) (List.replicate m 0 ++ [T]) := by
  induction m with
  | zero => simp
  | succ k ih =>
    rw [List.replicate_succ, List.cons_append, List.sorted_cons]
    exact ⟨fun b _ => Nat.zero_le b, ih⟩

lemma gini_all_zero (values : List ℕ) (h : values.all (fun v => v = 0) = true) :
    _calculate_gini_coefficient values = 0 := by
  unfold _calculate_gini_coefficient
  rw [if_pos (Or.inr h)]

lemma gini_eq_spec (values : List ℕ) :
    _calculate_gini_coefficient values = giniSpecFormula values := by
  unfold _calculate_gini_coefficient giniSpecFormula
  by_cases hg : values = [] ∨ values.all (fun v => v = 0) = true
  · rw [if_pos hg, if_pos hg]
  · rw [if_neg hg, if_neg hg]
    have hall : values.all (fun v => v = 0) = false := by
      rcases Bool.eq_false_or_eq_true (values.all fun v => v = 0) with h | h
      · exact absurd (Or.inr h) hg
      · exact h
    have hsumpos := sum_pos_of_not_all_zero values hall
    have hperm : (List.insertionSort (fun x y => x ≤ y) values).sum = values.sum :=
      (List.perm_insertionSort _ values).sum_eq
    rw [if_neg (by omega : ¬(List.insertionSort (fun x y => x ≤ y) values).sum = 0)]
    congr 1
    rw [giniNumAux_eq_sum]
    push_cast
    apply Finset.sum_congr rfl
    intro j _
    ring_nf

lemma gini_uniform_zero (n c : ℕ) :
    _calculate_gini_coefficient (List.replicate n c) = 0 := by
  rcases Nat.eq_zero_or_pos n with hn | hn
  · subst hn
    rw [List.replicate_zero]
    exact gini_all_zero [] rfl
  · by_cases hc : c = 0
    · subst hc
      apply gini_all_zero
      rw [List.all_eq_true]
      intro v hv
      rw [List.eq_of_mem_replicate hv]
      decide
    · have hsort : List.insertionSort (fun x y => x ≤ y) (List.replicate n c) =
          List.replicate n c :=
        List.Sorted.insertionSort_eq (List.pairwise_replicate.mpr (Or.inr (le_refl c)))
      have hsum : (List.replicate n c).sum = n * c := by
        simp [List.sum_replicate, smul_eq_mul]
      unfold _calculate_gini_coefficient
      rw [if_neg, hsort, hsum, if_neg]
      · rw [List.length_replicate, giniNumAux_replicate]
        simp
      · intro h
        rcases Nat.mul_eq_zero.mp h with h1 | h1
        · exact absurd h1 (Nat.pos_iff_ne_zero.mp hn)
        · exact hc h1
      · rintro (h | h)
        · rw [List.eq_nil_iff_forall_not_mem] at h
          exact h c (List.mem_replicate.mpr ⟨Nat.pos_iff_ne_zero.mp hn, rfl⟩)
        · rw [List.all_eq_true] at h
          exact hc (by simpa using h c (List.mem_replicate.mpr ⟨Nat.pos_iff_ne_zero.mp hn, rfl⟩))

lemma gini_concentrated (n T : ℕ) (hn : 1 ≤ n) (hT : 0 < T) :
    _calculate_gini_coefficient (List.replicate (n - 1) 0 ++ [T]) =
      ((n : ℚ) - 1) / (n : ℚ) := by
  have hmem : T ∈ List.replicate (n - 1) 0 ++ [T] := by simp
  have hsort : List.insertionSort (fun x y => x ≤ y) (List.replicate (n - 1) 0 ++ [T]) =
      List.replicate (n - 1) 0 ++ [T] :=
    List.Sorted.insertionSort_eq (sorted_zeros_then (n - 1) T)
  have hlen : (List.replicate (n - 1) 0 ++ [T]).length = n := by
    simp [List.length_append, List.length_replicate]
    omega
  have hsum : (List.replicate (n - 1) 0 ++ [T]).sum = T := by
    simp [List.sum_append, List.sum_replicate]
  unfold _calculate_gini_coefficient
  rw [if_neg, hsort, hsum, hlen, if_neg (by omega : ¬T = 0)]
  · have hnum : giniNumAux (n : ℤ) 0 (List.replicate (n - 1) 0 ++ [T]) =
        ((n : ℤ) - 1) * (T : ℤ) := by
      rw [giniNumAux_append, giniNumAux_replicate]
      rw [giniNumAux, giniNumAux]
      have hcast : ((n - 1 : ℕ) : ℤ) = (n : ℤ) - 1 := by
        push_cast [Nat.cast_sub hn]
        ring
      rw [List.length_replicate, hcast]
      ring
    rw [hnum]
    push_cast
    rw [mul_comm ((n : ℚ)) ((T : ℚ))]
    rw [div_eq_div_iff]
    · ring
    · have : (0 : ℚ) < (T : ℚ) * (n : ℚ) := by
        have h1 : (0 : ℚ) < (T : ℚ) := by exact_mod_cast hT
        have h2 : (0 : ℚ) < (n : ℚ) := by exact_mod_cast hn
        positivity
      exact ne_of_gt this
    · have h2 : (0 : ℚ) < (n : ℚ) := by exact_mod_cast hn
      exact ne_of_gt h2
  · rintro (h | h)
    · exact absurd h (by simp)
    · rw [List.all_eq_true] at h
      have := h T hmem
      simp at this
      omega

/-- C3: the Gini coefficient equals the spec's standard discrete
formula (sorted ascending, 1-indexed rank `i`, `sum((2*i-n-1)*value)`
divided by `n*sum`), it is 0 whenever all values are 0, it is 0 for
every uniform distribution, and for the maximally concentrated
distribution (one payer holds all `T` linked accounts, the other `n-1`
payers hold 0) it equals `(n-1)/n`. -/
theorem C3_gini_standard_formula_and_extremes :
    (∀ values : List ℕ, _calculate_gini_coefficient values = giniSpecFormula values) ∧
    (∀ values : List ℕ, values.all (fun v => v = 0) = true →
      _calculate_gini_coefficient values = 0) ∧
    (∀ n c : ℕ, _calculate_gini_coefficient (List.replicate n c) = 0) ∧
    (∀ n T : ℕ, 1 ≤ n → 0 < T →
      _calculate_gini_coefficient (List.replicate (n - 1) 0 ++ [T]) =
        ((n : ℚ) - 1) / (n : ℚ)) :=
  ⟨gini_eq_spec, gini_all_zero, gini_uniform_zero, gini_concentrated⟩

theorem C3_gini_witness :
    (List.replicate 3 4).all (fun v => v = 0) = false ∧
      _calculate_gini_coefficient (List.replicate 3 4) = 0 ∧
      _calculate_gini_coefficient [0, 0] = 0 ∧
      1 ≤ 3 ∧ 0 < 5 ∧
      _calculate_gini_coefficient (List.replicate (3 - 1) 0 ++ [5]) = ((3 : ℚ) - 1) / (3 : ℚ) :=
  ⟨by decide, C3_gini_standard_formula_and_extremes.2.2.1 3 4,
   C3_gini_standard_formula_and_extremes.2.1 [0, 0] (by decide),
   by decide, by decide,
   C3_gini_standard_formula_and_extremes.2.2.2 3 5 (by decide) (by decide)⟩
